import Mathlib

/-!
Shallow embedding of the `wedge` half-edge mesh library
(src/src/index.rs, src/src/mesh.rs, with `EdgeRef::vertices` from
src/src/wedge.rs), together with theorems settling the frozen claims
about its specification.

Machine integers: the Rust `Index` type is `u32`; it is modelled as `Nat`
with the sentinel `u32::max_value()` written out explicitly and the
`as u32` cast modelled as `% 2^32`.
Panics (`assert!`, `unwrap` on `None`, out-of-bounds indexing) are
modelled with `Except`, the error value carrying the state at the panic.
-/

namespace Wedge

/-- Source: src/src/index.rs, `pub type Index = u32`. Modelled as `Nat`;
truncation is applied explicitly where the code casts. -/
abbrev Index := Nat

/-- Source: `u32::max_value()`, the reserved sentinel index. -/
def IDX_MAX : Index := 4294967295

/-- One beyond the largest `u32`; used for the explicit `as u32` cast. -/
def U32_MOD : Nat := 4294967296

/-- Source: index.rs, `Index::new(x: usize)` is `x as u32` (truncating). -/
def indexNew (x : Nat) : Index := x % U32_MOD

/-- Source: index.rs, `IndexType::is_valid` for u32: `*self != u32::max_value()`. -/
def indexIsValid (i : Index) : Bool := i != IDX_MAX

/-- Source: index.rs lines 9-14, `IndexType::to_option`, translated exactly as
written there: it returns `none` when the index is valid and `some` when it is
the sentinel. -/
def indexToOption (i : Index) : Option Index :=
  if indexIsValid i then none else some i

/-- Source: mesh.rs `VertexInfo<Ix, V>`. -/
structure VertexInfo (V : Type) where
  base_edge_index : Index
  data : V
deriving DecidableEq

/-- Source: mesh.rs `VertexInfo::new`: `base_edge_index` starts at the sentinel. -/
def VertexInfo.mkNew (v : V) : VertexInfo V := ⟨IDX_MAX, v⟩

/-- Source: mesh.rs `HalfEdgeInfo`. -/
structure HalfEdgeInfo where
  vertex_index : Index
  next_face_index : Index
  next_edge_index : Index
  prev_edge_index : Index
deriving DecidableEq

/-- Source: mesh.rs `HalfEdgeInfo::new`: all fields start at the sentinel. -/
def HalfEdgeInfo.new : HalfEdgeInfo := ⟨IDX_MAX, IDX_MAX, IDX_MAX, IDX_MAX⟩

/-- Source: mesh.rs `EdgeInfo<E>`; the two-element array `half_edge` is
modelled as two fields. -/
structure EdgeInfo (E : Type) where
  half_edge0 : HalfEdgeInfo
  half_edge1 : HalfEdgeInfo
  data : E
deriving DecidableEq

/-- Source: mesh.rs `FaceInfo<F>`. -/
structure FaceInfo (F : Type) where
  base_edge_index : Index
  data : F
deriving DecidableEq

/-- Source: mesh.rs `Mesh<V, E, F>`: three parallel growable arrays. -/
structure Mesh (V E F : Type) where
  verts : List (VertexInfo V)
  edges : List (EdgeInfo E)
  faces : List (FaceInfo F)
deriving DecidableEq

variable {V E F : Type}

/-- Source: mesh.rs `Mesh::new`. -/
def Mesh.new : Mesh V E F := ⟨[], [], []⟩

/-- Source: mesh.rs `Mesh::is_valid_vertex_index`. -/
def Mesh.is_valid_vertex_index (m : Mesh V E F) (index : Index) : Bool :=
  decide (index < IDX_MAX) && decide (index < m.verts.length)

/-- Source: mesh.rs `Mesh::is_valid_edge_index`. -/
def Mesh.is_valid_edge_index (m : Mesh V E F) (index : Index) : Bool :=
  decide (index < IDX_MAX) && decide (index < m.edges.length)

/-- Source: mesh.rs `Mesh::is_valid_face_index`. -/
def Mesh.is_valid_face_index (m : Mesh V E F) (index : Index) : Bool :=
  decide (index < IDX_MAX) && decide (index < m.faces.length)

/-- Source: mesh.rs `Mesh::vertex_info`. -/
def Mesh.vertex_info (m : Mesh V E F) (index : Index) : Option (VertexInfo V) :=
  if m.is_valid_vertex_index index then m.verts[index]? else none

/-- Source: mesh.rs `Mesh::edge_info`. -/
def Mesh.edge_info (m : Mesh V E F) (index : Index) : Option (EdgeInfo E) :=
  if m.is_valid_edge_index index then m.edges[index]? else none

/-- Source: mesh.rs `Mesh::face_info`. -/
def Mesh.face_info (m : Mesh V E F) (index : Index) : Option (FaceInfo F) :=
  if m.is_valid_face_index index then m.faces[index]? else none

/-- Source: mesh.rs `impl_common_vertex_ref!::data`:
`if is_valid { Some(vertex_info().unwrap().data) } else { None }`. -/
def Mesh.vertexData (m : Mesh V E F) (index : Index) : Option V :=
  if m.is_valid_vertex_index index then (m.vertex_info index).map (fun vi => vi.data)
  else none

/-- Source: mesh.rs `impl_common_edge_ref!::data`. -/
def Mesh.edgeData (m : Mesh V E F) (index : Index) : Option E :=
  if m.is_valid_edge_index index then (m.edge_info index).map (fun e => e.data)
  else none

/-- Source: mesh.rs `FaceRef::face_info` / `FaceRef::data`: the face accessor
calls `.unwrap()` on `face_info` and returns a bare `&F`; the `unwrap` panic on
an invalid index is modelled as `Except.error ()`. -/
def Mesh.faceData (m : Mesh V E F) (index : Index) : Except Unit F :=
  match m.face_info index with
  | some fi => Except.ok fi.data
  | none => Except.error ()

/-- Source: src/src/wedge.rs lines 213-219, `EdgeRef::vertices`: reads both
half-edges of the edge record (direct arena indexing; out-of-bounds is the
`none` case). -/
def Mesh.edgeVertices (m : Mesh V E F) (index : Index) : Option (Index × Index) :=
  (m.edges[index]?).map (fun e => (e.half_edge0.vertex_index, e.half_edge1.vertex_index))

/-- Source: mesh.rs `EdgeInfo::next_edge_index_for_vertex`; the `assert!` that
the edge is connected to the vertex is the `Except.error` case. -/
def EdgeInfo.next_edge_index_for_vertex (e : EdgeInfo E) (base_vertex_index : Index) :
    Except Unit Index :=
  if e.half_edge0.vertex_index == base_vertex_index then
    Except.ok e.half_edge0.next_edge_index
  else if e.half_edge1.vertex_index == base_vertex_index then
    Except.ok e.half_edge1.next_edge_index
  else Except.error ()

/-- Source: mesh.rs lines 263-272, `EdgeInfo::previous_edge_index_for_vertex`,
translated exactly as written: both branches return the half-edge's
`next_edge_index` field (not `prev_edge_index`). -/
def EdgeInfo.previous_edge_index_for_vertex (e : EdgeInfo E) (base_vertex_index : Index) :
    Except Unit Index :=
  if e.half_edge0.vertex_index == base_vertex_index then
    Except.ok e.half_edge0.next_edge_index
  else if e.half_edge1.vertex_index == base_vertex_index then
    Except.ok e.half_edge1.next_edge_index
  else Except.error ()

/-- Source: mesh.rs `EdgeInfo::half_edge_for_vertex_mut` followed by the single
use site `prev_half_edge.next_edge_index = new_index` in `add_edge`: sets the
`next_edge_index` of the half-edge whose vertex matches `v`; the `assert!` is
the `Except.error` case. -/
def EdgeInfo.set_next_for_vertex (e : EdgeInfo E) (v n : Index) : Except Unit (EdgeInfo E) :=
  if e.half_edge0.vertex_index == v then
    Except.ok { e with half_edge0 := { e.half_edge0 with next_edge_index := n } }
  else if e.half_edge1.vertex_index == v then
    Except.ok { e with half_edge1 := { e.half_edge1 with next_edge_index := n } }
  else Except.error ()

/-- Source: mesh.rs `Mesh::add_vertex`: the returned index is computed from the
arena length before the push. -/
def Mesh.add_vertex (m : Mesh V E F) (v : V) : Mesh V E F × Index :=
  ({ m with verts := m.verts ++ [VertexInfo.mkNew v] }, indexNew m.verts.length)

/-- Source: one iteration (endpoint slot `i`, vertex `v`) of the loop body of
mesh.rs `Mesh::add_edge` lines 539-557: validates `v` (`assert!`), reads the
vertex's base edge, splices the previous ring edge if there is one, otherwise
installs the new edge as base edge, and fills in the new edge's half-edge for
this slot. The error value carries the mesh state at the panic. -/
def addEdgeEndpoint (m : Mesh V E F) (new_index v : Index) (he : HalfEdgeInfo) :
    Except (Mesh V E F) (Mesh V E F × HalfEdgeInfo) :=
  if m.is_valid_vertex_index v then
    match m.verts[v]? with
    | none => Except.error m
    | some vinfo =>
      if m.is_valid_edge_index vinfo.base_edge_index then
        match m.edges[vinfo.base_edge_index]? with
        | none => Except.error m
        | some base_edge =>
          match base_edge.previous_edge_index_for_vertex v with
          | Except.error _ => Except.error m
          | Except.ok prev_edge_index =>
            if m.is_valid_edge_index prev_edge_index then
              match m.edges[prev_edge_index]? with
              | none => Except.error m
              | some prev_edge =>
                match prev_edge.set_next_for_vertex v new_index with
                | Except.error _ => Except.error m
                | Except.ok prev2 =>
                  Except.ok ({ m with edges := m.edges.set prev_edge_index prev2 },
                    { he with prev_edge_index := new_index,
                              next_edge_index := vinfo.base_edge_index,
                              vertex_index := v })
            else
              Except.ok (m,
                { he with next_edge_index := vinfo.base_edge_index, vertex_index := v })
      else
        Except.ok ({ m with
            verts := m.verts.set v { vinfo with base_edge_index := new_index } },
          { he with next_edge_index := vinfo.base_edge_index, vertex_index := v })
  else Except.error m

/-- Source: mesh.rs lines 532-561, `Mesh::add_edge`: computes the new index
from the edge-arena length, processes endpoint `v1` into half-edge slot 0 and
then `v2` into slot 1 (each reading the then-current mesh), finally pushes the
new edge record. A panic in either endpoint step aborts with the mesh as
mutated so far (`Except.error`). -/
def Mesh.add_edge (m : Mesh V E F) (e : E) (v1 v2 : Index) :
    Except (Mesh V E F) (Mesh V E F × Index) :=
  match addEdgeEndpoint m (indexNew m.edges.length) v1 HalfEdgeInfo.new with
  | Except.error m1 => Except.error m1
  | Except.ok (m1, he0) =>
    match addEdgeEndpoint m1 (indexNew m.edges.length) v2 HalfEdgeInfo.new with
    | Except.error m2 => Except.error m2
    | Except.ok (m2, he1) =>
      Except.ok ({ m2 with edges := m2.edges ++ [⟨he0, he1, e⟩] }, indexNew m.edges.length)

/-- Source: mesh.rs `VertexEdgeIterator` state (the `&Mesh` borrow is passed
separately to each operation). -/
structure VertexEdgeIterator where
  base_vertex_index : Index
  start_edge_index : Option Index
  current_edge_index : Option Index
deriving DecidableEq

/-- Source: mesh.rs lines 111-129, `VertexEdgeIterator::new`: for a valid base
vertex the start and current edge are `base_edge_index.to_option()` (the
`unwrap` on `vertex_info` is the `Option.bind`); otherwise an exhausted
iterator with sentinel base vertex. -/
def VertexEdgeIterator.new (m : Mesh V E F) (base : Index) : VertexEdgeIterator :=
  if m.is_valid_vertex_index base then
    let be : Option Index := (m.vertex_info base).bind (fun vi => indexToOption vi.base_edge_index)
    { base_vertex_index := base, start_edge_index := be, current_edge_index := be }
  else
    { base_vertex_index := IDX_MAX, start_edge_index := none, current_edge_index := none }

/-- Outcome of one `VertexEdgeIterator::next` call: yield an edge index with
the successor state, finish (`Option::None`) with the final state, or panic
(a failed `assert!` or `unwrap`). -/
inductive StepResult where
  | yield (e : Index) (s : VertexEdgeIterator)
  | done (s : VertexEdgeIterator)
  | panic
deriving DecidableEq

/-- Source: the tail of mesh.rs `VertexEdgeIterator::next` after the next edge
index has been computed: `start_edge_index.unwrap()` (panic if `None`), stop
when the computed next equals the start, otherwise yield it and advance. -/
def VertexEdgeIterator.advance (s : VertexEdgeIterator) (next_edge_index : Index) :
    StepResult :=
  match s.start_edge_index with
  | none => StepResult.panic
  | some st =>
    if st == next_edge_index then StepResult.done { s with current_edge_index := none }
    else StepResult.yield next_edge_index { s with current_edge_index := some next_edge_index }

/-- Source: mesh.rs lines 151-183, `VertexEdgeIterator::next`: look up the
current edge (`current_edge()` is `edge_info` of the current index), pick the
half-edge whose vertex matches the base vertex (the `assert!` is the panic
case), and advance. -/
def VertexEdgeIterator.next (m : Mesh V E F) (s : VertexEdgeIterator) : StepResult :=
  match s.current_edge_index with
  | none => StepResult.done s
  | some ci =>
    match m.edge_info ci with
    | none => StepResult.done s
    | some edge =>
      if edge.half_edge0.vertex_index == s.base_vertex_index then
        s.advance edge.half_edge0.next_edge_index
      else if edge.half_edge1.vertex_index == s.base_vertex_index then
        s.advance edge.half_edge1.next_edge_index
      else StepResult.panic

/-- Result of running a `VertexEdgeIterator` to completion under a fuel bound:
the list of yielded edge indices, tagged by how the run ended. -/
inductive IterRun where
  | ok (yields : List Index)
  | panicked (yields : List Index)
  | outOfFuel (yields : List Index)
deriving DecidableEq

/-- Drive `VertexEdgeIterator.next` repeatedly, collecting the yielded edge
indices, for at most `fuel` calls. -/
def runVertexEdgeIter (m : Mesh V E F) : Nat → VertexEdgeIterator → IterRun
  | 0, _ => IterRun.outOfFuel []
  | fuel + 1, s =>
    match VertexEdgeIterator.next m s with
    | StepResult.done _ => IterRun.ok []
    | StepResult.panic => IterRun.panicked []
    | StepResult.yield e s2 =>
      match runVertexEdgeIter m fuel s2 with
      | IterRun.ok l => IterRun.ok (e :: l)
      | IterRun.panicked l => IterRun.panicked (e :: l)
      | IterRun.outOfFuel l => IterRun.outOfFuel (e :: l)

/-- Source: mesh.rs lines 570-584, `MeshVertexIterator::next`: the state is the
current index; yields the cursor at the current index and increments exactly
when the index passes the arena validity check at the moment of the call. -/
def meshVertexIterStep (m : Mesh V E F) (i : Index) : Option (Index × Index) :=
  if m.is_valid_vertex_index i then some (i, i + 1) else none

/-- Source: mesh.rs lines 591-602, `MeshEdgeIterator::next` (the state is the
`EdgeRef`'s index; `is_valid` delegates to `is_valid_edge_index`). -/
def meshEdgeIterStep (m : Mesh V E F) (i : Index) : Option (Index × Index) :=
  if m.is_valid_edge_index i then some (i, i + 1) else none

/-- Source: mesh.rs lines 610-621, `MeshFaceIterator::next`. -/
def meshFaceIterStep (m : Mesh V E F) (i : Index) : Option (Index × Index) :=
  if m.is_valid_face_index i then some (i, i + 1) else none

/-- Drive `meshVertexIterStep` from state `i`, collecting the yielded vertex
indices, for at most `fuel` calls. -/
def runMeshVertexIter (m : Mesh V E F) : Nat → Index → List Index
  | 0, _ => []
  | fuel + 1, i =>
    match meshVertexIterStep m i with
    | some (v, i2) => v :: runMeshVertexIter m fuel i2
    | none => []

/-- Repeated `Mesh::add_vertex` calls, returning the final mesh and the list of
returned indices in call order. -/
def addVertices (m : Mesh V E F) : List V → Mesh V E F × List Index
  | [] => (m, [])
  | v :: rest =>
    let p := m.add_vertex v
    let q := addVertices p.1 rest
    (q.1, p.2 :: q.2)

/-- The endpoint pair recorded on an edge's two half-edges. -/
def heEndpoints (e : EdgeInfo E) : Index × Index :=
  (e.half_edge0.vertex_index, e.half_edge1.vertex_index)

/-- Modelled from the spec: whether the edge record at position `j` has vertex
`v` as an endpoint of either half-edge. -/
def isIncident (m : Mesh V E F) (j v : Index) : Bool :=
  match m.edges[j]? with
  | some e => e.half_edge0.vertex_index == v || e.half_edge1.vertex_index == v
  | none => false

/-- Modelled from the spec: the number of edges incident to vertex `v`
(`k` in the claims about `vertex.edges()`). -/
def incidentEdgeCount (m : Mesh V E F) (v : Index) : Nat :=
  ((List.range m.edges.length).filter (fun j => isIncident m j v)).length

/-- Modelled from the spec (invariant I1): walk from `cur`, repeatedly
following the `next_edge` of the half-edge whose vertex equals `v`, collecting
visited edges, until the walk returns to `start`; `none` if the walk leaves the
edge arena, reaches an edge not incident to `v`, or exceeds the fuel. -/
def specRingWalkAux (m : Mesh V E F) (v start : Index) :
    Nat → Index → List Index → Option (List Index)
  | 0, _, _ => none
  | fuel + 1, cur, acc =>
    match m.edge_info cur with
    | none => none
    | some e =>
      match e.next_edge_index_for_vertex v with
      | Except.error _ => none
      | Except.ok n =>
        if n == start then some (acc ++ [cur])
        else specRingWalkAux m v start fuel n (acc ++ [cur])

/-- Modelled from the spec (invariant I1): for a vertex with a base edge, the
next-edge walk from the base edge must return to it after visiting every edge
incident to the vertex exactly once; a vertex without a base edge satisfies I1
exactly when it has no incident edges. -/
def specI1holds (m : Mesh V E F) (v : Index) : Bool :=
  match m.vertex_info v with
  | none => true
  | some vi =>
    if indexIsValid vi.base_edge_index then
      match specRingWalkAux m v vi.base_edge_index (m.edges.length + 1) vi.base_edge_index [] with
      | none => false
      | some visited =>
        (visited.eraseDups.length == visited.length) &&
          (List.range m.edges.length).all (fun j => isIncident m j v == visited.contains j)
    else
      incidentEdgeCount m v == 0

/-- Concrete mesh: two isolated vertices. -/
def meshTwoVerts : Mesh Unit Unit Unit := ((Mesh.new.add_vertex ()).1.add_vertex ()).1

/-- Concrete mesh: two vertices joined by one edge, `add_edge((), 0, 1)`. -/
def meshAfterEdge01 : Mesh Unit Unit Unit :=
  match meshTwoVerts.add_edge () 0 1 with
  | Except.ok p => p.1
  | Except.error m => m

/-- Concrete mesh: a single isolated vertex. -/
def meshOneVert : Mesh Unit Unit Unit := (Mesh.new.add_vertex ()).1

/-- Concrete mesh: one vertex with a self-loop edge, `add_edge((), 0, 0)`. -/
def meshAfterLoop00 : Mesh Unit Unit Unit :=
  match meshOneVert.add_edge () 0 0 with
  | Except.ok p => p.1
  | Except.error m => m

/-- Concrete mesh: the state in which `add_edge((), 0, 1)` on `meshOneVert`
panics (vertex 1 does not exist). -/
def meshAfterBadEdge : Mesh Unit Unit Unit :=
  match meshOneVert.add_edge () 0 1 with
  | Except.ok p => p.1
  | Except.error m => m

/-- Concrete mesh with one vertex, one edge and one face record, used to
exercise the payload accessors. -/
def meshVEF : Mesh Nat Nat Nat :=
  { verts := [⟨IDX_MAX, 5⟩],
    edges := [⟨HalfEdgeInfo.new, HalfEdgeInfo.new, 6⟩],
    faces := [⟨0, 7⟩] }

end Wedge

namespace Wedge

variable {V E F : Type}

/-- Helper: the inverted `to_option` yields `some` only for the sentinel. -/
theorem indexToOption_eq_some {i b : Index} (h : indexToOption i = some b) : b = IDX_MAX := by
  unfold indexToOption indexIsValid at h
  by_cases hi : i = IDX_MAX
  · subst hi
    simp at h
    first
    | exact h
    | exact h.symm
  · simp [hi] at h

/-- Helper: no arena lookup succeeds at the sentinel index. -/
theorem edge_info_idx_max (m : Mesh V E F) : m.edge_info IDX_MAX = none := by
  unfold Mesh.edge_info Mesh.is_valid_edge_index
  simp

/-- Helper: a freshly constructed vertex-edge iterator is already exhausted,
because `VertexEdgeIterator::new` feeds the base edge through the inverted
`IndexType::to_option`: a valid base edge becomes `none` and an absent base
edge becomes `some` sentinel, which no arena lookup accepts. -/
theorem vertexEdgeIter_new_next_done (m : Mesh V E F) (v : Index) :
    ∃ s, VertexEdgeIterator.next m (VertexEdgeIterator.new m v) = StepResult.done s := by
  by_cases hvalid : m.is_valid_vertex_index v = true
  · rcases hbe : (m.vertex_info v).bind (fun vi => indexToOption vi.base_edge_index) with _ | b
    · refine ⟨⟨v, none, none⟩, ?_⟩
      simp [VertexEdgeIterator.new, hvalid, hbe, VertexEdgeIterator.next]
    · have hb : b = IDX_MAX := by
        rcases Option.bind_eq_some.mp hbe with ⟨vi, _, h2⟩
        exact indexToOption_eq_some h2
      subst hb
      refine ⟨⟨v, some IDX_MAX, some IDX_MAX⟩, ?_⟩
      simp [VertexEdgeIterator.new, hvalid, hbe, VertexEdgeIterator.next, edge_info_idx_max]
  · refine ⟨⟨IDX_MAX, none, none⟩, ?_⟩
    have hv : m.is_valid_vertex_index v = false := by
      cases h2 : m.is_valid_vertex_index v
      · rfl
      · exact absurd h2 hvalid
    simp [VertexEdgeIterator.new, hv, VertexEdgeIterator.next]

/-- Helper: running the vertex-edge iterator from a freshly constructed state
yields the empty sequence, for every mesh, vertex and positive fuel. -/
theorem runVertexEdgeIter_new_empty (m : Mesh V E F) (v : Index) (fuel : Nat) :
    runVertexEdgeIter m (fuel + 1) (VertexEdgeIterator.new m v) = IterRun.ok [] := by
  obtain ⟨s, hs⟩ := vertexEdgeIter_new_next_done m v
  simp [runVertexEdgeIter, hs]

/-- C1. The claim says `vertex(V).edge_iter()` yields exactly the k incident
edges of V in ring order starting at the base edge. On the code this fails:
in the mesh with two vertices joined by one edge, vertex 0 has one incident
edge, `add_edge` succeeds, yet the iterator yields the empty sequence (the
inverted `IndexType::to_option` turns the valid base edge into `None`). -/
theorem C1_vertex_edge_iterator_yields_nothing :
    incidentEdgeCount meshAfterEdge01 0 = 1 ∧
    meshTwoVerts.add_edge () 0 1 = Except.ok (meshAfterEdge01, 0) ∧
    runVertexEdgeIter meshAfterEdge01 (meshAfterEdge01.edges.length + 1)
      (VertexEdgeIterator.new meshAfterEdge01 0) = IterRun.ok [] :=
  ⟨rfl, rfl, rfl⟩

/-- C2. The claim says `add_edge` preserves invariant I1 at both endpoints, an
empty ring becoming a closed ring of one. On the code this fails: after
`add_edge((), 0, 1)` on two isolated vertices, each endpoint's base edge is
the new edge, but the new edge's `next_edge_index` is left at the sentinel
rather than pointing back to itself, so the I1 walk from the base edge never
returns to it at either endpoint. -/
theorem C2_add_edge_breaks_ring_invariant :
    meshTwoVerts.add_edge () 0 1 = Except.ok (meshAfterEdge01, 0) ∧
    (meshAfterEdge01.verts[0]?).map (fun vi => vi.base_edge_index) = some 0 ∧
    (meshAfterEdge01.edges[0]?).map (fun e => e.half_edge0.next_edge_index) = some IDX_MAX ∧
    specI1holds meshAfterEdge01 0 = false ∧
    specI1holds meshAfterEdge01 1 = false ∧
    incidentEdgeCount meshAfterEdge01 0 = 1 :=
  ⟨rfl, rfl, rfl, rfl, rfl, rfl⟩

/-- C4. The claim says a self-loop `add_edge(p, v, v)` succeeds (it does, and
both half-edges reference v) and that `v`'s edge iteration then includes the
loop exactly once. On the code the iteration includes it zero times: it yields
the empty sequence. -/
theorem C4_self_loop_not_iterated :
    meshOneVert.add_edge () 0 0 = Except.ok (meshAfterLoop00, 0) ∧
    (meshAfterLoop00.edges[0]?).map
      (fun e => (e.half_edge0.vertex_index, e.half_edge1.vertex_index)) = some (0, 0) ∧
    incidentEdgeCount meshAfterLoop00 0 = 1 ∧
    runVertexEdgeIter meshAfterLoop00 (meshAfterLoop00.edges.length + 1)
      (VertexEdgeIterator.new meshAfterLoop00 0) = IterRun.ok [] :=
  ⟨rfl, rfl, rfl, rfl⟩

/-- C5 counterexample. The claim says every cursor's `data()` returns absent on
an invalid index and never fails. The face cursor refutes it: on the empty
mesh, face index 0 is invalid, and `FaceRef::data` unwraps the absent record
and panics (`Except.error`) instead of returning an absent value. -/
theorem C5_counterexample_face_data_panics :
    (Mesh.new : Mesh Unit Unit Unit).is_valid_face_index 0 = false ∧
    (Mesh.new : Mesh Unit Unit Unit).faceData 0 = Except.error () :=
  ⟨rfl, rfl⟩

/-- C8. The vertex-incident-edge iteration terminates for every mesh and every
vertex within edge-arena-size + 1 iterator steps, and the number of yielded
edges is bounded by the edge-arena size. (On the current code this holds
degenerately: the constructor bug settled in C1 makes every such iteration
finish immediately with no yields, so no walk, corrupted ring or not, can loop
forever.) -/
theorem C8_vertex_edge_iteration_bounded (m : Mesh V E F) (v : Index) :
    ∃ l, runVertexEdgeIter m (m.edges.length + 1) (VertexEdgeIterator.new m v) =
        IterRun.ok l ∧ l.length ≤ m.edges.length :=
  ⟨[], runVertexEdgeIter_new_empty m v m.edges.length, by simp⟩

end Wedge

namespace Wedge

variable {V E F : Type}

/-- Helper: facts about a successful `half_edge_for_vertex_mut` update: the
payload and both endpoint fields are unchanged, and the edge is incident to
the requested vertex. -/
theorem set_next_for_vertex_ok {e e2 : EdgeInfo E} {v n : Index}
    (h : e.set_next_for_vertex v n = Except.ok e2) :
    e2.data = e.data ∧ heEndpoints e2 = heEndpoints e ∧
    (e.half_edge0.vertex_index == v || e.half_edge1.vertex_index == v) = true := by
  unfold EdgeInfo.set_next_for_vertex at h
  split at h
  · rename_i h0
    injection h with h
    subst h
    simp_all [heEndpoints]
  · split at h
    · rename_i h0 h1
      injection h with h
      subst h
      simp_all [heEndpoints]
    · exact absurd h (by simp)

/-- Helper: an `addEdgeEndpoint` panic happens before any mutation of that
endpoint: the carried mesh state is the input mesh. -/
theorem addEdgeEndpoint_error {m m1 : Mesh V E F} {ni v : Index} {he : HalfEdgeInfo}
    (h : addEdgeEndpoint m ni v he = Except.error m1) : m1 = m := by
  unfold addEdgeEndpoint at h
  split at h
  case isFalse =>
    injection h with h
    exact h.symm
  case isTrue hvalid =>
  rcases hverts : m.verts[v]? with _ | vinfo
  all_goals rw [hverts] at h
  · injection h with h
    exact h.symm
  simp only [] at h
  split at h
  case isFalse hbase =>
    exact absurd h (by simp)
  case isTrue hbase =>
  rcases hbe : m.edges[vinfo.base_edge_index]? with _ | base_edge
  all_goals rw [hbe] at h
  · injection h with h
    exact h.symm
  simp only [] at h
  rcases hpe : base_edge.previous_edge_index_for_vertex v with u | prev_edge_index
  all_goals rw [hpe] at h
  · injection h with h
    exact h.symm
  simp only [] at h
  split at h
  case isFalse hprevvalid =>
    exact absurd h (by simp)
  case isTrue hprevvalid =>
  rcases hprev_edge : m.edges[prev_edge_index]? with _ | prev_edge
  all_goals rw [hprev_edge] at h
  · injection h with h
    exact h.symm
  simp only [] at h
  rcases hset : prev_edge.set_next_for_vertex v ni with u | prev2
  all_goals rw [hset] at h
  · injection h with h
    exact h.symm
  simp only [] at h
  exact absurd h (by simp)

/-- Helper: an invalid endpoint index makes `addEdgeEndpoint` fail immediately
with the mesh unchanged. -/
theorem addEdgeEndpoint_invalid {m : Mesh V E F} {ni v : Index} {he : HalfEdgeInfo}
    (h : m.is_valid_vertex_index v = false) :
    addEdgeEndpoint m ni v he = Except.error m := by
  unfold addEdgeEndpoint
  simp [h]

/-- Helper: frame conditions of one successful endpoint splice: the produced
half-edge references the endpoint; faces are untouched; arena lengths are
unchanged; vertex records other than the endpoint are untouched; all vertex
and edge payloads and all edge endpoint fields are untouched; edges not
incident to the endpoint are untouched. -/
theorem addEdgeEndpoint_ok {m m1 : Mesh V E F} {ni v : Index} {he he1 : HalfEdgeInfo}
    (h : addEdgeEndpoint m ni v he = Except.ok (m1, he1)) :
    he1.vertex_index = v ∧
    m1.faces = m.faces ∧
    m1.edges.length = m.edges.length ∧
    m1.verts.length = m.verts.length ∧
    (∀ i : Index, i ≠ v → m1.verts[i]? = m.verts[i]?) ∧
    (∀ i : Index, (m1.verts[i]?).map (fun (x : VertexInfo V) => x.data) =
      (m.verts[i]?).map (fun (x : VertexInfo V) => x.data)) ∧
    (∀ j : Index, (m1.edges[j]?).map (fun (x : EdgeInfo E) => x.data) =
      (m.edges[j]?).map (fun (x : EdgeInfo E) => x.data)) ∧
    (∀ j : Index, (m1.edges[j]?).map (fun (x : EdgeInfo E) => heEndpoints x) =
      (m.edges[j]?).map (fun (x : EdgeInfo E) => heEndpoints x)) ∧
    (∀ j : Index, isIncident m j v = false → m1.edges[j]? = m.edges[j]?) := by
  unfold addEdgeEndpoint at h
  split at h
  case isFalse => exact absurd h (by simp)
  case isTrue hvalid =>
  rcases hvinfo : m.verts[v]? with _ | vinfo
  all_goals rw [hvinfo] at h
  · exact absurd h (by simp)
  simp only [] at h
  have hvlt : v < m.verts.length := by
    rcases List.getElem?_eq_some.mp hvinfo with ⟨hl, _⟩
    exact hl
  split at h
  case isFalse hbase =>
    -- empty ring: base edge installed on the vertex record
    injection h with h
    injection h with hm hhe
    subst hm
    subst hhe
    refine ⟨rfl, rfl, rfl, by simp, ?_, ?_, fun j => rfl, fun j => rfl, fun j _ => rfl⟩
    · intro i hi
      exact List.getElem?_set_ne (Ne.symm hi)
    · intro i
      by_cases hiv : i = v
      · subst hiv
        rw [hvinfo, List.getElem?_set_eq_of_lt _ hvlt]
        rfl
      · rw [List.getElem?_set_ne (Ne.symm hiv)]
  case isTrue hbase =>
  rcases hbase_edge : m.edges[vinfo.base_edge_index]? with _ | base_edge
  all_goals rw [hbase_edge] at h
  · exact absurd h (by simp)
  simp only [] at h
  rcases hpe : base_edge.previous_edge_index_for_vertex v with u | prev_edge_index
  all_goals rw [hpe] at h
  · exact absurd h (by simp)
  simp only [] at h
  split at h
  case isFalse hprevvalid =>
    -- previous edge invalid: no splice, mesh unchanged
    injection h with h
    injection h with hm hhe
    subst hm
    subst hhe
    exact ⟨rfl, rfl, rfl, rfl, fun i _ => rfl, fun i => rfl, fun j => rfl, fun j => rfl,
      fun j _ => rfl⟩
  case isTrue hprevvalid =>
  rcases hprev_edge : m.edges[prev_edge_index]? with _ | prev_edge
  all_goals rw [hprev_edge] at h
  · exact absurd h (by simp)
  simp only [] at h
  rcases hset : prev_edge.set_next_for_vertex v ni with u | prev2
  all_goals rw [hset] at h
  · exact absurd h (by simp)
  simp only [] at h
  injection h with h
  injection h with hm hhe
  subst hm
  subst hhe
  obtain ⟨hdata, hends, hinc⟩ := set_next_for_vertex_ok hset
  have hplt : prev_edge_index < m.edges.length := by
    rcases List.getElem?_eq_some.mp hprev_edge with ⟨hl, _⟩
    exact hl
  refine ⟨rfl, rfl, by simp, rfl, fun i _ => rfl, fun i => rfl, ?_, ?_, ?_⟩
  · intro j
    by_cases hj : j = prev_edge_index
    · subst hj
      rw [hprev_edge, List.getElem?_set_eq_of_lt _ hplt]
      simp [hdata]
    · rw [List.getElem?_set_ne (Ne.symm hj)]
  · intro j
    by_cases hj : j = prev_edge_index
    · subst hj
      rw [hprev_edge, List.getElem?_set_eq_of_lt _ hplt]
      simp [hends]
    · rw [List.getElem?_set_ne (Ne.symm hj)]
  · intro j hjinc
    by_cases hj : j = prev_edge_index
    · subst hj
      exfalso
      unfold isIncident at hjinc
      rw [hprev_edge] at hjinc
      simp only [] at hjinc
      rw [hinc] at hjinc
      simp at hjinc
    · exact List.getElem?_set_ne (Ne.symm hj)

/-- Helper: incidence only depends on the endpoint fields of the edge record. -/
theorem isIncident_congr {m1 m : Mesh V E F} {j : Index}
    (h : (m1.edges[j]?).map heEndpoints = (m.edges[j]?).map heEndpoints) (v : Index) :
    isIncident m1 j v = isIncident m j v := by
  unfold isIncident
  cases h1 : m1.edges[j]? with
  | none =>
    cases h2 : m.edges[j]? with
    | none => rfl
    | some b => rw [h1, h2] at h; simp at h
  | some a =>
    cases h2 : m.edges[j]? with
    | none => rw [h1, h2] at h; simp at h
    | some b =>
      rw [h1, h2] at h
      simp only [Option.map_some', Option.some.injEq, heEndpoints, Prod.mk.injEq] at h
      simp [h.1, h.2]

end Wedge

namespace Wedge

variable {V E F : Type}

/-- Helper: a successful `add_edge` call decomposes into two successful
endpoint splices followed by the push of the new edge record. -/
theorem add_edge_ok_parts {m m2 : Mesh V E F} {p : E} {v1 v2 e : Index}
    (h : m.add_edge p v1 v2 = Except.ok (m2, e)) :
    ∃ ma mb he0 he1,
      addEdgeEndpoint m (indexNew m.edges.length) v1 HalfEdgeInfo.new = Except.ok (ma, he0) ∧
      addEdgeEndpoint ma (indexNew m.edges.length) v2 HalfEdgeInfo.new = Except.ok (mb, he1) ∧
      m2 = { mb with edges := mb.edges ++ [⟨he0, he1, p⟩] } ∧
      e = indexNew m.edges.length := by
  unfold Mesh.add_edge at h
  rcases hep1 : addEdgeEndpoint m (indexNew m.edges.length) v1 HalfEdgeInfo.new with mx | ⟨ma, he0⟩
  all_goals rw [hep1] at h
  · exact absurd h (by simp)
  simp only [] at h
  rcases hep2 : addEdgeEndpoint ma (indexNew m.edges.length) v2 HalfEdgeInfo.new with mx | ⟨mb, he1⟩
  all_goals rw [hep2] at h
  · exact absurd h (by simp)
  simp only [] at h
  injection h with h
  injection h with hm he
  exact ⟨ma, mb, he0, he1, rfl, hep2, hm.symm, he.symm⟩



/-- C9. Frame conditions of a successful `add_edge(p, v1, v2)` call returning
edge index e on mesh m2: exactly one edge record is appended and nothing is
removed; the face arena is untouched; vertex records other than v1 and v2 are
untouched; every stored vertex and edge payload is unchanged; and a
pre-existing edge record changes only if it is incident to v1 or v2 (an edge
of one of their rings). -/
theorem C9_add_edge_frame {m m2 : Mesh V E F} {p : E} {v1 v2 e : Index}
    (h : m.add_edge p v1 v2 = Except.ok (m2, e)) :
    m2.faces = m.faces ∧
    m2.edges.length = m.edges.length + 1 ∧
    m2.verts.length = m.verts.length ∧
    (∀ i : Index, i ≠ v1 → i ≠ v2 → m2.verts[i]? = m.verts[i]?) ∧
    (∀ i : Index, (m2.verts[i]?).map (fun (x : VertexInfo V) => x.data) =
      (m.verts[i]?).map (fun (x : VertexInfo V) => x.data)) ∧
    (∀ j : Index, j < m.edges.length →
      (m2.edges[j]?).map (fun (x : EdgeInfo E) => x.data) =
        (m.edges[j]?).map (fun (x : EdgeInfo E) => x.data)) ∧
    (∀ j : Index, j < m.edges.length → isIncident m j v1 = false →
      isIncident m j v2 = false → m2.edges[j]? = m.edges[j]?) := by
  obtain ⟨ma, mb, he0, he1, hep1, hep2, hm2, _⟩ := add_edge_ok_parts h
  obtain ⟨_, hfa1, hel1, hvl1, hvi1, hvd1, hed1, hee1, hni1⟩ := addEdgeEndpoint_ok hep1
  obtain ⟨_, hfa2, hel2, hvl2, hvi2, hvd2, hed2, hee2, hni2⟩ := addEdgeEndpoint_ok hep2
  subst hm2
  have hmblen : mb.edges.length = m.edges.length := hel2.trans hel1
  refine ⟨hfa2.trans hfa1, ?_, hvl2.trans hvl1, ?_, ?_, ?_, ?_⟩
  · show (mb.edges ++ [(⟨he0, he1, p⟩ : EdgeInfo E)]).length = m.edges.length + 1
    rw [List.length_append, hmblen]
    rfl
  · intro i hi1 hi2
    exact (hvi2 i hi2).trans (hvi1 i hi1)
  · intro i
    exact (hvd2 i).trans (hvd1 i)
  · intro j hj
    have hjmb : j < mb.edges.length := by rw [hmblen]; exact hj
    show ((mb.edges ++ [(⟨he0, he1, p⟩ : EdgeInfo E)])[j]?).map (fun (x : EdgeInfo E) => x.data) =
      (m.edges[j]?).map (fun (x : EdgeInfo E) => x.data)
    rw [List.getElem?_append_left hjmb]
    exact (hed2 j).trans (hed1 j)
  · intro j hj hjv1 hjv2
    have hjmb : j < mb.edges.length := by rw [hmblen]; exact hj
    have hjv2a : isIncident ma j v2 = false := (isIncident_congr (hee1 j) v2).trans hjv2
    show (mb.edges ++ [(⟨he0, he1, p⟩ : EdgeInfo E)])[j]? = m.edges[j]?
    rw [List.getElem?_append_left hjmb]
    exact (hni2 j hjv2a).trans (hni1 j hjv1)

/-- C9 witness: instantiation of the frame theorem at the concrete call
`add_edge((), 0, 1)` on the two-vertex mesh, where it succeeds. -/
theorem C9_add_edge_frame_witness :
    meshAfterEdge01.faces = meshTwoVerts.faces ∧
    meshAfterEdge01.edges.length = meshTwoVerts.edges.length + 1 ∧
    meshAfterEdge01.verts.length = meshTwoVerts.verts.length ∧
    (∀ i : Index, i ≠ 0 → i ≠ 1 → meshAfterEdge01.verts[i]? = meshTwoVerts.verts[i]?) ∧
    (∀ i : Index, (meshAfterEdge01.verts[i]?).map (fun (x : VertexInfo Unit) => x.data) =
      (meshTwoVerts.verts[i]?).map (fun (x : VertexInfo Unit) => x.data)) ∧
    (∀ j : Index, j < meshTwoVerts.edges.length →
      (meshAfterEdge01.edges[j]?).map (fun (x : EdgeInfo Unit) => x.data) =
        (meshTwoVerts.edges[j]?).map (fun (x : EdgeInfo Unit) => x.data)) ∧
    (∀ j : Index, j < meshTwoVerts.edges.length → isIncident meshTwoVerts j 0 = false →
      isIncident meshTwoVerts j 1 = false → meshAfterEdge01.edges[j]? = meshTwoVerts.edges[j]?) :=
  C9_add_edge_frame (rfl : meshTwoVerts.add_edge () 0 1 = Except.ok (meshAfterEdge01, 0))

/-- C7. Round-trip: a successful `add_edge(p, v1, v2)` on a mesh whose edge
arena is below the index bound returns the next edge index; `vertices()` on
the new edge decodes half-edge 0 as v1 and half-edge 1 as v2 (the endpoint
set {v1, v2}); and `data()` on it returns the stored payload p. -/
theorem C7_add_edge_roundtrip {m m2 : Mesh V E F} {p : E} {v1 v2 e : Index}
    (h : m.add_edge p v1 v2 = Except.ok (m2, e)) (hlen : m.edges.length < IDX_MAX) :
    e = m.edges.length ∧
    m2.edgeVertices e = some (v1, v2) ∧
    m2.edgeData e = some p := by
  obtain ⟨ma, mb, he0, he1, hep1, hep2, hm2, he⟩ := add_edge_ok_parts h
  obtain ⟨hv1, _, hel1, _, _, _, _, _, _⟩ := addEdgeEndpoint_ok hep1
  obtain ⟨hv2, _, hel2, _, _, _, _, _, _⟩ := addEdgeEndpoint_ok hep2
  have hmod : indexNew m.edges.length = m.edges.length := by
    unfold indexNew
    exact Nat.mod_eq_of_lt (lt_trans hlen (by decide))
  have he' : e = m.edges.length := he.trans hmod
  subst hm2
  have hmblen : mb.edges.length = m.edges.length := hel2.trans hel1
  have hsome : (mb.edges ++ [(⟨he0, he1, p⟩ : EdgeInfo E)])[e]? =
      some (⟨he0, he1, p⟩ : EdgeInfo E) := by
    rw [he', ← hmblen]
    exact List.getElem?_concat_length mb.edges ⟨he0, he1, p⟩
  refine ⟨he', ?_, ?_⟩
  · unfold Mesh.edgeVertices
    show ((mb.edges ++ [(⟨he0, he1, p⟩ : EdgeInfo E)])[e]?).map _ = _
    rw [hsome]
    simp [hv1, hv2]
  · have hvalid : Mesh.is_valid_edge_index
        { mb with edges := mb.edges ++ [(⟨he0, he1, p⟩ : EdgeInfo E)] } e = true := by
      unfold Mesh.is_valid_edge_index
      show (decide (e < IDX_MAX) && decide (e < (mb.edges ++ _).length)) = true
      rw [List.length_append, hmblen, he']
      simp [hlen]
    unfold Mesh.edgeData Mesh.edge_info
    rw [hvalid]
    simp only [if_true]
    show ((mb.edges ++ [(⟨he0, he1, p⟩ : EdgeInfo E)])[e]?).map _ = _
    rw [hsome]
    rfl

/-- C7 witness: the concrete call `add_edge((), 0, 1)` on the two-vertex mesh
returns edge index 0, whose endpoints decode to (0, 1) and whose payload reads
back. -/
theorem C7_add_edge_roundtrip_witness :
    (0 : Index) = meshTwoVerts.edges.length ∧
    meshAfterEdge01.edgeVertices 0 = some (0, 1) ∧
    meshAfterEdge01.edgeData 0 = some () :=
  C7_add_edge_roundtrip (rfl : meshTwoVerts.add_edge () 0 1 = Except.ok (meshAfterEdge01, 0))
    (by decide)

end Wedge

namespace Wedge

variable {V E F : Type}

/-- C3 counterexample. The claim says that when an endpoint index is invalid,
`add_edge` fails with the mesh left completely unchanged, both endpoints being
validated before any mutation. Concretely refuted: on the one-vertex mesh,
`add_edge((), 0, 1)` panics on the invalid second endpoint only after splicing
the first, so the state at the panic has vertex 0's `base_edge_index` changed
from the sentinel to 0. -/
theorem C3_counterexample_partial_mutation :
    meshOneVert.add_edge () 0 1 = Except.error meshAfterBadEdge ∧
    meshAfterBadEdge ≠ meshOneVert ∧
    (meshOneVert.verts[0]?).map (fun vi => vi.base_edge_index) = some IDX_MAX ∧
    (meshAfterBadEdge.verts[0]?).map (fun vi => vi.base_edge_index) = some 0 :=
  ⟨rfl, by decide, rfl, rfl⟩

/-- C3 amended. `add_edge` validates each endpoint immediately before splicing
it, not both up front: if v1 is invalid it fails with the mesh unchanged, but
if v1 is valid and v2 is invalid it fails only after v1's splice, so v1's
record (and possibly one edge of its ring) may be left mutated; no edge record
is appended, the face arena is untouched, and every vertex record other than
v1 is unchanged. -/
theorem C3_add_edge_validation_order (m : Mesh V E F) (p : E) (v1 v2 : Index) :
    (m.is_valid_vertex_index v1 = false → m.add_edge p v1 v2 = Except.error m) ∧
    (m.is_valid_vertex_index v1 = true → m.is_valid_vertex_index v2 = false →
      ∃ m1, m.add_edge p v1 v2 = Except.error m1 ∧
        m1.edges.length = m.edges.length ∧
        m1.faces = m.faces ∧
        m1.verts.length = m.verts.length ∧
        (∀ i : Index, i ≠ v1 → m1.verts[i]? = m.verts[i]?)) := by
  constructor
  · intro hv1
    unfold Mesh.add_edge
    rw [addEdgeEndpoint_invalid hv1]
  · intro hv1 hv2
    unfold Mesh.add_edge
    rcases hep1 : addEdgeEndpoint m (indexNew m.edges.length) v1 HalfEdgeInfo.new with
      mx | ⟨ma, he0⟩
    · have hmx : mx = m := addEdgeEndpoint_error hep1
      refine ⟨m, ?_, rfl, rfl, rfl, fun i _ => rfl⟩
      simp only []
      rw [hmx]
    · obtain ⟨_, hfa1, hel1, hvl1, hvi1, _, _, _, _⟩ := addEdgeEndpoint_ok hep1
      have hv2a : ma.is_valid_vertex_index v2 = false := by
        unfold Mesh.is_valid_vertex_index at hv2 ⊢
        rw [hvl1]
        exact hv2
      simp only []
      rw [addEdgeEndpoint_invalid hv2a]
      exact ⟨ma, rfl, hel1, hfa1, hvl1, hvi1⟩

/-- C3 amended witness: concrete instantiation at the one-vertex mesh with the
out-of-range second endpoint 1: the call fails after mutating only vertex 0,
appending no edge. -/
theorem C3_add_edge_validation_order_witness :
    ∃ m1 : Mesh Unit Unit Unit, meshOneVert.add_edge () 0 1 = Except.error m1 ∧
      m1.edges.length = meshOneVert.edges.length ∧
      m1.faces = meshOneVert.faces ∧
      m1.verts.length = meshOneVert.verts.length ∧
      (∀ i : Index, i ≠ 0 → m1.verts[i]? = meshOneVert.verts[i]?) :=
  (C3_add_edge_validation_order meshOneVert () 0 1).2 (by decide) (by decide)

/-- C5 amended. The vertex and edge cursors' `data()` return absent exactly on
an invalid index and the stored payload on a valid one, as a routine negative
result; the face cursor's `data()`, however, panics on an invalid index
instead of returning absent (and returns the stored payload on a valid one). -/
theorem C5_data_accessors (m : Mesh V E F) (i : Index) :
    (m.is_valid_vertex_index i = false → m.vertexData i = none) ∧
    (m.is_valid_vertex_index i = true →
      ∃ vi, m.verts[i]? = some vi ∧ m.vertexData i = some vi.data) ∧
    (m.is_valid_edge_index i = false → m.edgeData i = none) ∧
    (m.is_valid_edge_index i = true →
      ∃ ei, m.edges[i]? = some ei ∧ m.edgeData i = some ei.data) ∧
    (m.is_valid_face_index i = false → m.faceData i = Except.error ()) ∧
    (m.is_valid_face_index i = true →
      ∃ fi, m.faces[i]? = some fi ∧ m.faceData i = Except.ok fi.data) := by
  refine ⟨?_, ?_, ?_, ?_, ?_, ?_⟩
  · intro h
    unfold Mesh.vertexData
    rw [h]
    rfl
  · intro h
    have hlt : i < m.verts.length := by
      unfold Mesh.is_valid_vertex_index at h
      simp at h
      exact h.2
    refine ⟨m.verts[i], List.getElem?_eq_getElem hlt, ?_⟩
    unfold Mesh.vertexData Mesh.vertex_info
    rw [h]
    simp [List.getElem?_eq_getElem hlt]
  · intro h
    unfold Mesh.edgeData
    rw [h]
    rfl
  · intro h
    have hlt : i < m.edges.length := by
      unfold Mesh.is_valid_edge_index at h
      simp at h
      exact h.2
    refine ⟨m.edges[i], List.getElem?_eq_getElem hlt, ?_⟩
    unfold Mesh.edgeData Mesh.edge_info
    rw [h]
    simp [List.getElem?_eq_getElem hlt]
  · intro h
    unfold Mesh.faceData Mesh.face_info
    rw [h]
    rfl
  · intro h
    have hlt : i < m.faces.length := by
      unfold Mesh.is_valid_face_index at h
      simp at h
      exact h.2
    refine ⟨m.faces[i], List.getElem?_eq_getElem hlt, ?_⟩
    unfold Mesh.faceData Mesh.face_info
    rw [h]
    simp [List.getElem?_eq_getElem hlt]

/-- C5 amended witness: on a mesh with one vertex, edge and face record, the
three accessors return the stored payloads 5, 6 and 7 at index 0, and at the
invalid index 3 the vertex and edge accessors return absent while the face
accessor panics. -/
theorem C5_data_accessors_witness :
    (∃ vi, meshVEF.verts[(0 : Index)]? = some vi ∧ meshVEF.vertexData 0 = some vi.data) ∧
    (∃ ei, meshVEF.edges[(0 : Index)]? = some ei ∧ meshVEF.edgeData 0 = some ei.data) ∧
    (∃ fi, meshVEF.faces[(0 : Index)]? = some fi ∧ meshVEF.faceData 0 = Except.ok fi.data) ∧
    meshVEF.vertexData 3 = none ∧
    meshVEF.edgeData 3 = none ∧
    meshVEF.faceData 3 = Except.error () :=
  ⟨(C5_data_accessors meshVEF 0).2.1 (by decide),
   (C5_data_accessors meshVEF 0).2.2.2.1 (by decide),
   (C5_data_accessors meshVEF 0).2.2.2.2.2 (by decide),
   (C5_data_accessors meshVEF 3).1 (by decide),
   (C5_data_accessors meshVEF 3).2.2.1 (by decide),
   (C5_data_accessors meshVEF 3).2.2.2.2.1 (by decide)⟩

end Wedge

namespace Wedge

variable {V E F : Type}

/-- Helper: repeated `add_vertex` appends exactly the new records, each with a
sentinel base edge, to the vertex arena, touching nothing else. -/
theorem addVertices_fst (m : Mesh V E F) (vs : List V) :
    (addVertices m vs).1 = { m with verts := m.verts ++ vs.map VertexInfo.mkNew } := by
  induction vs generalizing m with
  | nil => simp [addVertices]
  | cons v rest ih =>
    simp only [addVertices, Mesh.add_vertex]
    rw [ih]
    simp [List.append_assoc]

/-- Helper: the indices returned by repeated `add_vertex` are the successive
arena lengths, truncated to u32. -/
theorem addVertices_snd (m : Mesh V E F) (vs : List V) :
    (addVertices m vs).2 =
      (List.range vs.length).map (fun i => indexNew (m.verts.length + i)) := by
  induction vs generalizing m with
  | nil => simp [addVertices]
  | cons v rest ih =>
    simp only [addVertices, Mesh.add_vertex]
    rw [ih]
    simp only [List.length_cons]
    rw [List.range_succ_eq_map, List.map_cons, List.map_map]
    congr 1
    apply List.map_congr_left
    intro a _
    simp only [Function.comp, List.length_append, List.length_cons, List.length_nil]
    congr 1
    omega

/-- Helper: the arena-order vertex iterator, run from state `i` with enough
fuel, yields exactly the ascending indices from `i` up to the arena length
(when the arena is within the index bound). -/
theorem runMeshVertexIter_range (m : Mesh V E F) (hle : m.verts.length ≤ IDX_MAX) :
    ∀ (fuel i : Nat), m.verts.length ≤ i + fuel →
      runMeshVertexIter m fuel i = List.range' i (m.verts.length - i) := by
  intro fuel
  induction fuel with
  | zero =>
    intro i hi
    have h0 : m.verts.length - i = 0 := by omega
    rw [h0]
    rfl
  | succ n ih =>
    intro i hi
    by_cases hv : m.is_valid_vertex_index i = true
    · have hc : i < IDX_MAX ∧ i < m.verts.length := by
        unfold Mesh.is_valid_vertex_index at hv
        simp only [Bool.and_eq_true, decide_eq_true_eq] at hv
        exact hv
      have hsub : m.verts.length - i = (m.verts.length - (i + 1)) + 1 := by omega
      rw [hsub, List.range'_succ]
      simp only [runMeshVertexIter, meshVertexIterStep, hv, if_true]
      rw [ih (i + 1) (by omega)]
    · have hc : ¬ (i < IDX_MAX ∧ i < m.verts.length) := by
        intro hcon
        exact hv (by
          unfold Mesh.is_valid_vertex_index
          simp [hcon.1, hcon.2])
      have h0 : m.verts.length - i = 0 := by omega
      rw [h0]
      have hvf : m.is_valid_vertex_index i = false := by
        cases h2 : m.is_valid_vertex_index i
        · rfl
        · exact absurd h2 hv
      simp [runMeshVertexIter, meshVertexIterStep, hvf]

/-- C6. Starting from a fresh mesh, the i-th (0-indexed) `add_vertex` call
returns index i (for any payload sequence within the index bound), every
created record has an absent base edge, and the arena-order vertex iteration
then yields the payloads in exactly insertion order. -/
theorem C6_add_vertex_sequential (vs : List V) (h : vs.length ≤ IDX_MAX) :
    (addVertices (Mesh.new : Mesh V E F) vs).2 = List.range vs.length ∧
    (∀ vi ∈ (addVertices (Mesh.new : Mesh V E F) vs).1.verts,
      vi.base_edge_index = IDX_MAX) ∧
    (runMeshVertexIter (addVertices (Mesh.new : Mesh V E F) vs).1 (vs.length + 1) 0).map
      ((addVertices (Mesh.new : Mesh V E F) vs).1.vertexData) = vs.map some := by
  have hfst : (addVertices (Mesh.new : Mesh V E F) vs).1 =
      { verts := vs.map VertexInfo.mkNew, edges := [], faces := [] } := by
    rw [addVertices_fst]
    simp [Mesh.new]
  have hlen : (addVertices (Mesh.new : Mesh V E F) vs).1.verts.length = vs.length := by
    rw [hfst]
    simp
  have hiu : IDX_MAX < U32_MOD := by decide
  refine ⟨?_, ?_, ?_⟩
  · rw [addVertices_snd]
    have hcg : ∀ x ∈ List.range vs.length,
        indexNew ((Mesh.new : Mesh V E F).verts.length + x) = id x := by
      intro x hx
      have hxlt : x < vs.length := List.mem_range.mp hx
      show indexNew (([] : List (VertexInfo V)).length + x) = x
      unfold indexNew
      simp only [List.length_nil, Nat.zero_add]
      exact Nat.mod_eq_of_lt (lt_trans (lt_of_lt_of_le hxlt h) hiu)
    rw [List.map_congr_left hcg, List.map_id]
  · intro vi hvi
    rw [hfst] at hvi
    simp only [List.mem_map] at hvi
    obtain ⟨a, _, ha⟩ := hvi
    rw [← ha]
    rfl
  · have hrun : runMeshVertexIter (addVertices (Mesh.new : Mesh V E F) vs).1
        (vs.length + 1) 0 = List.range vs.length := by
      rw [runMeshVertexIter_range (addVertices (Mesh.new : Mesh V E F) vs).1
        (by rw [hlen]; exact h) (vs.length + 1) 0 (by rw [hlen]; omega)]
      rw [hlen, Nat.sub_zero, ← List.range_eq_range']
    rw [hrun]
    apply List.ext_getElem
    · simp
    · intro j h1 h2
      have hjn : j < vs.length := by simpa using h1
      have hvalid : (addVertices (Mesh.new : Mesh V E F) vs).1.is_valid_vertex_index j = true := by
        unfold Mesh.is_valid_vertex_index
        rw [hlen]
        simp only [Bool.and_eq_true, decide_eq_true_eq]
        exact ⟨lt_of_lt_of_le hjn h, hjn⟩
      have hget : (addVertices (Mesh.new : Mesh V E F) vs).1.verts[j]? =
          some (VertexInfo.mkNew vs[j]) := by
        rw [hfst]
        simp [List.getElem?_eq_getElem (by simpa using hjn : j < (vs.map VertexInfo.mkNew).length)]
      simp only [List.getElem_map, List.getElem_range]
      unfold Mesh.vertexData Mesh.vertex_info
      rw [hvalid]
      simp [hget, VertexInfo.mkNew]

/-- C6 witness: adding payloads 5, 11, 15 to a fresh mesh returns indices
0, 1, 2, all records have absent base edges, and iteration yields 5, 11, 15. -/
theorem C6_add_vertex_sequential_witness :
    (addVertices (Mesh.new : Mesh Nat Unit Unit) [5, 11, 15]).2 = List.range 3 ∧
    (∀ vi ∈ (addVertices (Mesh.new : Mesh Nat Unit Unit) [5, 11, 15]).1.verts,
      vi.base_edge_index = IDX_MAX) ∧
    (runMeshVertexIter (addVertices (Mesh.new : Mesh Nat Unit Unit) [5, 11, 15]).1 4 0).map
      ((addVertices (Mesh.new : Mesh Nat Unit Unit) [5, 11, 15]).1.vertexData) =
      [5, 11, 15].map some :=
  C6_add_vertex_sequential [5, 11, 15] (by decide)

/-- C10. Each arena-order iterator decides whether to yield by re-checking the
arena validity of its current position at the moment of the call, yielding the
cursor at position i and moving to i + 1 exactly when i is valid; the vertex
iterator's state equal to the current arena length yields nothing, but after a
mid-iteration `add_vertex` the same state yields the new element; a full run
from position 0 visits exactly the indices 0..length-1 in ascending order. -/
theorem C10_arena_iterator_steps (m : Mesh V E F) (i : Index) (w : V) :
    (meshVertexIterStep m i = if m.is_valid_vertex_index i then some (i, i + 1) else none) ∧
    (meshEdgeIterStep m i = if m.is_valid_edge_index i then some (i, i + 1) else none) ∧
    (meshFaceIterStep m i = if m.is_valid_face_index i then some (i, i + 1) else none) ∧
    meshVertexIterStep m m.verts.length = none ∧
    (m.verts.length < IDX_MAX →
      meshVertexIterStep (m.add_vertex w).1 m.verts.length =
        some (m.verts.length, m.verts.length + 1)) ∧
    (m.verts.length ≤ IDX_MAX →
      runMeshVertexIter m (m.verts.length + 1) 0 = List.range m.verts.length) := by
  refine ⟨rfl, rfl, rfl, ?_, ?_, ?_⟩
  · unfold meshVertexIterStep Mesh.is_valid_vertex_index
    simp
  · intro hlt
    unfold meshVertexIterStep Mesh.is_valid_vertex_index Mesh.add_vertex
    simp [hlt]
  · intro hle
    rw [runMeshVertexIter_range m hle (m.verts.length + 1) 0 (by omega)]
    rw [Nat.sub_zero, ← List.range_eq_range']

/-- C10 witness: on the two-vertex mesh, position 2 (the arena length) is not
yielded, but after one more `add_vertex` the same position yields the new
cursor; the full run from 0 yields positions 0 and 1. -/
theorem C10_arena_iterator_steps_witness :
    meshVertexIterStep (meshTwoVerts.add_vertex ()).1 2 = some (2, 3) ∧
    runMeshVertexIter meshTwoVerts 3 0 = List.range 2 := by
  have h := C10_arena_iterator_steps meshTwoVerts 0 ()
  exact ⟨h.2.2.2.2.1 (by decide), h.2.2.2.2.2 (by decide)⟩

end Wedge
